import Mathlib

/-!
Verification of the TAH multi-tenant IAM console against its design spec.

The data model is embedded from `src/backend/scripts/init.sql` (tables,
enums, the `set_updated_at` triggers and the
`v_user_effective_permissions_rbac` view).  Client-side logic is embedded
from the React sources (`role-permissions.tsx`, `app-launcher.tsx`,
`client.ts`, the accept-invite page).  The Sync Engine has no code in the
repository (only its response types and the HTTP trigger exist), so it is
modelled from the spec where indicated.

UUID and TEXT columns are modelled as `String`, TIMESTAMPTZ columns as
`Nat`, JSONB payloads as `String`.
-/

namespace TAH

/-- Enum `tenant_status` from init.sql. -/
inductive TenantStatus
  | active
  | suspended
  | deleted
  deriving DecidableEq, Repr

/-- Enum `app_status` from init.sql. -/
inductive AppStatus
  | active
  | inactive
  | maintenance
  | deprecated
  deriving DecidableEq, Repr

/-- Enum `role_status` from init.sql. -/
inductive RoleStatus
  | active
  | inactive
  | deleted
  deriving DecidableEq, Repr

/-- Enum `user_tenant_status` from init.sql. -/
inductive UserTenantStatus
  | active
  | invited
  | suspended
  | revoked
  deriving DecidableEq, Repr

/-- Enum `permission_lifecycle` from init.sql. -/
inductive PermissionLifecycle
  | active
  | deprecated
  | removed
  deriving DecidableEq, Repr

/-- A row of table `tenants` (init.sql). -/
structure TenantRow where
  id : String
  slug : Option String
  name : String
  status : TenantStatus
  metadata : String
  created_at : Nat
  updated_at : Nat
  deleted_at : Option Nat
  deriving DecidableEq, Repr

/-- A row of table `users` (init.sql). -/
structure UserRow where
  id : String
  email : Option String
  display_name : Option String
  password_hash : Option String
  status : String
  external_subject : Option String
  metadata : String
  created_at : Nat
  updated_at : Nat
  deriving DecidableEq, Repr

/-- A row of table `user_tenants` (init.sql). -/
structure UserTenantRow where
  id : String
  user_id : String
  tenant_id : String
  status : UserTenantStatus
  invited_by : Option String
  invite_token : Option String
  invite_expires_at : Option Nat
  joined_at : Option Nat
  metadata : String
  created_at : Nat
  updated_at : Nat
  deriving DecidableEq, Repr

/-- A row of table `applications` (init.sql). -/
structure ApplicationRow where
  id : String
  name : String
  description : Option String
  base_url : String
  status : AppStatus
  current_version : Option String
  healthcheck_url : Option String
  auth_mode : String
  metadata : String
  created_at : Nat
  updated_at : Nat
  deriving DecidableEq, Repr

/-- A row of table `tenant_applications` (init.sql). -/
structure TenantApplicationRow where
  id : String
  tenant_id : String
  application_id : String
  status : AppStatus
  enabled_at : Option Nat
  disabled_at : Option Nat
  config : String
  created_at : Nat
  updated_at : Nat
  deriving DecidableEq, Repr

/-- A row of table `external_permissions` (init.sql), the permission catalog. -/
structure ExternalPermissionRow where
  id : String
  application_id : String
  module_key : String
  module_name : Option String
  permission_key : String
  description : Option String
  lifecycle : PermissionLifecycle
  first_seen_version : Option String
  last_seen_version : Option String
  discovered_at : Nat
  last_seen_at : Nat
  metadata : String
  created_at : Nat
  updated_at : Nat
  deriving DecidableEq, Repr

/-- A row of table `roles` (init.sql). -/
structure RoleRow where
  id : String
  tenant_id : String
  name : String
  description : Option String
  status : RoleStatus
  is_system : Bool
  metadata : String
  created_by : Option String
  created_at : Nat
  updated_at : Nat
  deleted_at : Option Nat
  deriving DecidableEq, Repr

/-- A row of table `role_permissions` (init.sql). -/
structure RolePermissionRow where
  id : String
  tenant_id : String
  role_id : String
  application_id : String
  permission_key : String
  granted_by : Option String
  granted_at : Nat
  metadata : String
  deriving DecidableEq, Repr

/-- A row of table `user_roles` (init.sql). -/
structure UserRoleRow where
  id : String
  tenant_id : String
  user_id : String
  role_id : String
  assigned_by : Option String
  assigned_at : Nat
  metadata : String
  deriving DecidableEq, Repr

/-- The `set_updated_at` BEFORE UPDATE trigger as installed on `tenants`
(`trg_tenants_updated_at`): the NEW row is written with
`updated_at = NOW()`, overriding whatever the writer supplied. -/
def trg_tenants_updated_at (now : Nat) (new : TenantRow) : TenantRow :=
  { new with updated_at := now }

/-- The `set_updated_at` trigger as installed on `users`. -/
def trg_users_updated_at (now : Nat) (new : UserRow) : UserRow :=
  { new with updated_at := now }

/-- The `set_updated_at` trigger as installed on `user_tenants`. -/
def trg_user_tenants_updated_at (now : Nat) (new : UserTenantRow) : UserTenantRow :=
  { new with updated_at := now }

/-- The `set_updated_at` trigger as installed on `applications`. -/
def trg_applications_updated_at (now : Nat) (new : ApplicationRow) : ApplicationRow :=
  { new with updated_at := now }

/-- The `set_updated_at` trigger as installed on `tenant_applications`. -/
def trg_tenant_applications_updated_at (now : Nat) (new : TenantApplicationRow) :
    TenantApplicationRow :=
  { new with updated_at := now }

/-- The `set_updated_at` trigger as installed on `external_permissions`. -/
def trg_external_permissions_updated_at (now : Nat) (new : ExternalPermissionRow) :
    ExternalPermissionRow :=
  { new with updated_at := now }

/-- The `set_updated_at` trigger as installed on `roles`. -/
def trg_roles_updated_at (now : Nat) (new : RoleRow) : RoleRow :=
  { new with updated_at := now }

/-- The tables of the database that the authorization claims range over. -/
structure Database where
  roles : List RoleRow
  role_permissions : List RolePermissionRow
  user_roles : List UserRoleRow
  external_permissions : List ExternalPermissionRow
  deriving Repr

/-- A row of the view `v_user_effective_permissions_rbac`. -/
structure EffRow where
  tenant_id : String
  user_id : String
  application_id : String
  permission_key : String
  deriving DecidableEq, Repr

/-- The view `v_user_effective_permissions_rbac` (init.sql lines 336-345):
SELECT DISTINCT ur.tenant_id, ur.user_id, rp.application_id,
rp.permission_key FROM user_roles ur JOIN role_permissions rp ON
rp.tenant_id = ur.tenant_id AND rp.role_id = ur.role_id.  Note the view
joins only `user_roles` and `role_permissions`: it consults neither
`external_permissions` (lifecycle) nor `roles` (status). -/
def v_user_effective_permissions_rbac (db : Database) : List EffRow :=
  (db.user_roles.flatMap (fun ur =>
    (db.role_permissions.filter (fun rp =>
      rp.tenant_id == ur.tenant_id && rp.role_id == ur.role_id)).map (fun rp =>
        { tenant_id := ur.tenant_id
          user_id := ur.user_id
          application_id := rp.application_id
          permission_key := rp.permission_key }))).dedup

/-- The effective-permission set of a (tenant, user) pair as the database
serves it: the rows of `v_user_effective_permissions_rbac` for that pair,
projected to (application_id, permission_key). -/
def effectivePermissionsOf (db : Database) (t u : String) : List (String × String) :=
  ((v_user_effective_permissions_rbac db).filter (fun r =>
    r.tenant_id == t && r.user_id == u)).map (fun r =>
      (r.application_id, r.permission_key))

/-- Spec-side definition for the refinement comparison of claim C2, written
from the spec words: resolution UserRole(tenant,user) to RoleGrant(tenant,role),
filtered to catalog entries whose lifecycle is not removed, unioned and
deduplicated. -/
def specEffectivePermissions (db : Database) (t u : String) : List (String × String) :=
  ((db.user_roles.filter (fun ur => ur.tenant_id == t && ur.user_id == u)).flatMap (fun ur =>
    (db.role_permissions.filter (fun rp =>
      rp.tenant_id == t && rp.role_id == ur.role_id)).filter (fun rp =>
        db.external_permissions.any (fun ep =>
          ep.application_id == rp.application_id &&
          ep.permission_key == rp.permission_key &&
          !(ep.lifecycle == PermissionLifecycle.removed))))).map (fun rp =>
            (rp.application_id, rp.permission_key)) |>.dedup

/-- A database in which the catalog entry (app1, legacy:write) has
lifecycle `removed` while a role_permissions row still references it and
the role is assigned to user u1 in tenant t1. -/
def exDB1 : Database :=
  { roles := [{ id := "r1", tenant_id := "t1", name := "Analyst", description := none,
                status := RoleStatus.active, is_system := false, metadata := "",
                created_by := none, created_at := 0, updated_at := 0, deleted_at := none }]
    role_permissions :=
      [{ id := "rp1", tenant_id := "t1", role_id := "r1", application_id := "app1",
         permission_key := "projects:read", granted_by := none, granted_at := 0, metadata := "" },
       { id := "rp2", tenant_id := "t1", role_id := "r1", application_id := "app1",
         permission_key := "legacy:write", granted_by := none, granted_at := 0, metadata := "" }]
    user_roles :=
      [{ id := "ur1", tenant_id := "t1", user_id := "u1", role_id := "r1",
         assigned_by := none, assigned_at := 0, metadata := "" }]
    external_permissions :=
      [{ id := "ep1", application_id := "app1", module_key := "projects", module_name := none,
         permission_key := "projects:read", description := none,
         lifecycle := PermissionLifecycle.active, first_seen_version := none,
         last_seen_version := none, discovered_at := 0, last_seen_at := 0, metadata := "",
         created_at := 0, updated_at := 0 },
       { id := "ep2", application_id := "app1", module_key := "legacy", module_name := none,
         permission_key := "legacy:write", description := none,
         lifecycle := PermissionLifecycle.removed, first_seen_version := none,
         last_seen_version := none, discovered_at := 0, last_seen_at := 0, metadata := "",
         created_at := 0, updated_at := 0 }] }

/-- A database in which role r2 is soft-deleted (status `deleted`,
deleted_at set) while its role_permissions row is retained and the role is
assigned to user u1 in tenant t1. -/
def exDB3 : Database :=
  { roles := [{ id := "r2", tenant_id := "t1", name := "Auditor", description := none,
                status := RoleStatus.deleted, is_system := false, metadata := "",
                created_by := none, created_at := 0, updated_at := 5, deleted_at := some 5 }]
    role_permissions :=
      [{ id := "rp3", tenant_id := "t1", role_id := "r2", application_id := "app1",
         permission_key := "reports:read", granted_by := none, granted_at := 0, metadata := "" }]
    user_roles :=
      [{ id := "ur2", tenant_id := "t1", user_id := "u1", role_id := "r2",
         assigned_by := none, assigned_at := 0, metadata := "" }]
    external_permissions :=
      [{ id := "ep3", application_id := "app1", module_key := "reports", module_name := none,
         permission_key := "reports:read", description := none,
         lifecycle := PermissionLifecycle.active, first_seen_version := none,
         last_seen_version := none, discovered_at := 0, last_seen_at := 0, metadata := "",
         created_at := 0, updated_at := 0 }] }

/-- The body construction of `saveMutation` in role-permissions.tsx: given
the originally granted keys (`matrix.granted_permissions`, made into a Set)
and the user-selected keys (the `selectedPermissions` Set), grant keys that
are selected but not originally granted, revoke keys that are originally
granted but not selected.  JS Sets are modelled by deduplicated lists. -/
def buildBatchBody (granted selected : List String) : List String × List String :=
  let original := granted.dedup
  let sel := selected.dedup
  (sel.filter (fun k => !(original.contains k)),
   original.filter (fun k => !(sel.contains k)))

/-- The `AppLauncherItem` interface of app-launcher.tsx. -/
structure AppLauncherItem where
  id : String
  name : String
  description : Option String
  icon : Option String
  logo_url : Option String
  base_url : String
  launch_url : Option String
  callback_url : Option String
  status : String
  category : Option String
  deriving DecidableEq, Repr

/-- The `AppTokenResponse` interface of app-launcher.tsx. -/
structure AppTokenResponse where
  access_token : String
  token_type : String
  expires_in : Nat
  application_id : String
  permissions : List String
  deriving DecidableEq, Repr

/-- The body posted to /auth/app-token by `launchMutation`. -/
structure AppTokenRequest where
  application_id : String
  tenant_id : String
  deriving DecidableEq, Repr

/-- JS `x || d` on a nullable string: falls back to the default when the
value is null or the empty string (both falsy). -/
def jsOrElse (v : Option String) (d : String) : String :=
  match v with
  | none => d
  | some s => if s = "" then d else s

/-- JS `s.replace(AnchoredSlashPattern, emptyString)`: removes a single
trailing slash when present (the regex matches only at the end of the
string). -/
def stripTrailingSlash (s : String) : String :=
  if s.endsWith "/" then s.dropRight 1 else s

/-- The request body built by `launchMutation` in app-launcher.tsx:
application_id from the clicked app, tenant_id from the current tenant. -/
def appTokenRequest (app : AppLauncherItem) (tenantId : String) : AppTokenRequest :=
  { application_id := app.id, tenant_id := tenantId }

/-- The URL opened by `launchMutation.onSuccess` in app-launcher.tsx:
baseUrl is launch_url falling back to base_url, callbackPath is
callback_url falling back to /auth/tah-callback, a trailing slash is
stripped from baseUrl, and the access token is appended as a query
parameter. -/
def launchUrlFor (app : AppLauncherItem) (token : AppTokenResponse) : String :=
  let baseUrl := jsOrElse app.launch_url app.base_url
  let callbackPath := jsOrElse app.callback_url "/auth/tah-callback"
  let cleanBaseUrl := stripTrailingSlash baseUrl
  cleanBaseUrl ++ callbackPath ++ "?token=" ++ token.access_token

/-- Spec-side formula for claim C8, written from the claim words: the
application launch_url (falling back to base_url, trailing slash
stripped) concatenated with its callback path (falling back to
/auth/tah-callback) followed by ?token= and the access token. -/
def claimLaunchUrl (launch_url : Option String) (base_url : String)
    (callback_url : Option String) (access_token : String) : String :=
  stripTrailingSlash (jsOrElse launch_url base_url) ++
    jsOrElse callback_url "/auth/tah-callback" ++ "?token=" ++ access_token

/-- The body posted to /auth/accept-invite by the accept-invite page. -/
structure AcceptInviteRequest where
  token : Option String
  password : String
  deriving DecidableEq, Repr

/-- Outcome of submitting the accept-invite form. -/
inductive AcceptInviteOutcome
  | sendRequest (body : AcceptInviteRequest)
  | showError (msg : String)
  deriving DecidableEq, Repr

/-- `handleSubmit` of AcceptInvitePage: if the two password fields differ,
show an error and send nothing; if the password is shorter than 6
characters, show an error and send nothing; otherwise post the token and
password. -/
def acceptInviteSubmit (token : Option String) (password confirmPassword : String) :
    AcceptInviteOutcome :=
  if password ≠ confirmPassword then
    AcceptInviteOutcome.showError "Passwords do not match"
  else if password.length < 6 then
    AcceptInviteOutcome.showError "Password must be at least 6 characters"
  else
    AcceptInviteOutcome.sendRequest { token := token, password := password }

/-- The module-level mutable state of api/client.ts: the `isRefreshing`
flag, the `failedQueue`, and localStorage's access_token and
refresh_token.  `refreshInFlight` counts refresh POSTs that have been
issued but not yet resolved; `retried` records queued requests re-sent
with a new token and `rejected` records queued requests whose promise was
rejected. -/
structure ClientState where
  isRefreshing : Bool
  failedQueue : List Nat
  access_token : Option String
  refresh_token : Option String
  refreshInFlight : Nat
  retried : List (Nat × String)
  rejected : List Nat
  deriving DecidableEq, Repr

/-- Initial client state: no refresh in progress, empty queue, whatever
tokens localStorage holds. -/
def clientInit (at0 rt0 : Option String) : ClientState :=
  { isRefreshing := false, failedQueue := [], access_token := at0,
    refresh_token := rt0, refreshInFlight := 0, retried := [], rejected := [] }

/-- Events of the response interceptor in client.ts: a non-auth request
(not yet retried) fails with 401, or the single refresh POST resolves or
rejects. -/
inductive ClientEvent
  | resp401 (rid : Nat)
  | refreshSuccess (tok : String) (newRefresh : Option String)
  | refreshFailure
  deriving DecidableEq, Repr

/-- One step of the response interceptor of client.ts (lines 59-137).
On a 401 while `isRefreshing` is set, the request is pushed onto
`failedQueue` and no refresh is issued.  On a 401 while it is clear and a
refresh token exists, `isRefreshing` is set and one refresh POST goes out.
On a 401 with no stored refresh token, the access token is cleared and the
user is sent to login.  When the refresh POST resolves, the new access
token is stored, the optional rotated refresh token is stored,
`processQueue` resolves every queued request (each is retried with the new
token), and the `finally` clause clears `isRefreshing`.  When it rejects,
`processQueue` rejects every queued request, both stored tokens are
removed, and `isRefreshing` is cleared. -/
inductive ClientStep : ClientState → ClientEvent → ClientState → Prop
  | on401_queued (s : ClientState) (rid : Nat) (h : s.isRefreshing = true) :
      ClientStep s (ClientEvent.resp401 rid) { s with failedQueue := s.failedQueue ++ [rid] }
  | on401_start (s : ClientState) (rid : Nat) (h : s.isRefreshing = false)
      (hr : s.refresh_token.isSome) :
      ClientStep s (ClientEvent.resp401 rid)
        { s with isRefreshing := true, refreshInFlight := s.refreshInFlight + 1 }
  | on401_noToken (s : ClientState) (rid : Nat) (h : s.isRefreshing = false)
      (hr : s.refresh_token = none) :
      ClientStep s (ClientEvent.resp401 rid) { s with access_token := none }
  | refresh_ok (s : ClientState) (tok : String) (newRefresh : Option String)
      (h : 0 < s.refreshInFlight) :
      ClientStep s (ClientEvent.refreshSuccess tok newRefresh)
        { isRefreshing := false
          failedQueue := []
          access_token := some tok
          refresh_token := match newRefresh with | some r => some r | none => s.refresh_token
          refreshInFlight := s.refreshInFlight - 1
          retried := s.retried ++ s.failedQueue.map (fun rid => (rid, tok))
          rejected := s.rejected }
  | refresh_err (s : ClientState) (h : 0 < s.refreshInFlight) :
      ClientStep s ClientEvent.refreshFailure
        { isRefreshing := false
          failedQueue := []
          access_token := none
          refresh_token := none
          refreshInFlight := s.refreshInFlight - 1
          retried := s.retried
          rejected := s.rejected ++ s.failedQueue }

/-- States reachable from a given initial state through interceptor
steps. -/
inductive ClientReachable (init : ClientState) : ClientState → Prop
  | refl : ClientReachable init init
  | step (s s' : ClientState) (e : ClientEvent) :
      ClientReachable init s → ClientStep s e s' → ClientReachable init s'

/-- Modelled from the spec: the Sync Engine is not present in src/ (only
the FeatureSyncSummary and FeatureSyncResponse types and the frontend
trigger are).  A manifest declaration, keyed by permission_key, carrying
the tracked fields. -/
structure ManifestEntry where
  permission_key : String
  module_key : String
  description : Option String
  deriving DecidableEq, Repr

/-- Modelled from the spec: a versioned capability manifest. -/
structure Manifest where
  version : Nat
  entries : List ManifestEntry
  deriving DecidableEq, Repr

/-- Modelled from the spec: a stored catalog entry as the Sync Engine
tracks it (permission_key, tracked fields, lifecycle, version and
last-seen bookkeeping, and the time it was deprecated for the retention
policy). -/
structure CatalogEntry where
  permission_key : String
  module_key : String
  description : Option String
  lifecycle : PermissionLifecycle
  first_seen_version : Nat
  last_seen_version : Nat
  last_seen_at : Nat
  deprecated_at : Option Nat
  deriving DecidableEq, Repr

/-- The FeatureSyncSummary type of app-feature.ts. -/
structure SyncSummary where
  added : Nat
  updated : Nat
  deprecated : Nat
  removed : Nat
  unchanged : Nat
  deriving DecidableEq, Repr

/-- First manifest entry with the given permission_key. -/
def findManifestEntry (m : Manifest) (key : String) : Option ManifestEntry :=
  m.entries.find? (fun e => e.permission_key == key)

/-- Whether the manifest declares the given permission_key. -/
def manifestHasKey (m : Manifest) (key : String) : Bool :=
  (findManifestEntry m key).isSome

/-- First catalog entry with the given permission_key. -/
def findCatalogEntry (c : List CatalogEntry) (key : String) : Option CatalogEntry :=
  c.find? (fun ce => ce.permission_key == key)

/-- Whether the catalog holds the given permission_key. -/
def catalogHasKey (c : List CatalogEntry) (key : String) : Bool :=
  c.any (fun ce => ce.permission_key == key)

/-- Modelled from the spec: a tracked field of a present entry differs
from the manifest declaration (the entry counts as updated rather than
unchanged). -/
def entryChanged (me : ManifestEntry) (ce : CatalogEntry) : Bool :=
  !(ce.module_key == me.module_key && ce.description == me.description &&
    ce.lifecycle == PermissionLifecycle.active)

/-- Modelled from the spec: a catalog entry present in the manifest gets
its tracked fields updated and its last_seen bookkeeping refreshed. -/
def refreshEntry (m : Manifest) (now : Nat) (me : ManifestEntry) (ce : CatalogEntry) :
    CatalogEntry :=
  { ce with module_key := me.module_key, description := me.description,
            lifecycle := PermissionLifecycle.active, deprecated_at := none,
            last_seen_version := m.version, last_seen_at := now }

/-- Modelled from the spec: an active catalog entry absent from the
manifest is deprecated rather than deleted; an entry already deprecated
that has stayed absent past the retention window transitions to
removed. -/
def retireEntry (now retention : Nat) (ce : CatalogEntry) : CatalogEntry :=
  match ce.lifecycle with
  | PermissionLifecycle.active =>
      { ce with lifecycle := PermissionLifecycle.deprecated, deprecated_at := some now }
  | PermissionLifecycle.deprecated =>
      match ce.deprecated_at with
      | some d =>
          if d + retention ≤ now then { ce with lifecycle := PermissionLifecycle.removed }
          else ce
      | none => ce
  | PermissionLifecycle.removed => ce

/-- Modelled from the spec: the per-entry catalog transition of one sync
run. -/
def syncEntryStep (m : Manifest) (now retention : Nat) (ce : CatalogEntry) : CatalogEntry :=
  match findManifestEntry m ce.permission_key with
  | some me => refreshEntry m now me ce
  | none => retireEntry now retention ce

/-- Modelled from the spec: a manifest entry not present in the catalog is
added with lifecycle active and first_seen_version set to the manifest
version. -/
def newCatalogEntry (m : Manifest) (now : Nat) (me : ManifestEntry) : CatalogEntry :=
  { permission_key := me.permission_key, module_key := me.module_key,
    description := me.description, lifecycle := PermissionLifecycle.active,
    first_seen_version := m.version, last_seen_version := m.version,
    last_seen_at := now, deprecated_at := none }

/-- Modelled from the spec: the Sync diff of section 4.1.  Existing
entries are refreshed or retired, manifest entries missing from the
catalog are appended, and the summary counts added / updated / unchanged
over the manifest entries and deprecated / removed over the catalog
entries. -/
def syncDiff (m : Manifest) (catalog : List CatalogEntry) (now retention : Nat) :
    List CatalogEntry × SyncSummary :=
  let newlyAdded := m.entries.filter (fun me => !(catalogHasKey catalog me.permission_key))
  let newCat := catalog.map (syncEntryStep m now retention) ++
    newlyAdded.map (newCatalogEntry m now)
  let updatedCount := m.entries.countP (fun me =>
    match findCatalogEntry catalog me.permission_key with
    | some ce => entryChanged me ce
    | none => false)
  let unchangedCount := m.entries.countP (fun me =>
    match findCatalogEntry catalog me.permission_key with
    | some ce => !(entryChanged me ce)
    | none => false)
  let deprecatedCount := catalog.countP (fun ce =>
    ce.lifecycle == PermissionLifecycle.active && !(manifestHasKey m ce.permission_key))
  let removedCount := catalog.countP (fun ce =>
    !(manifestHasKey m ce.permission_key) &&
    ce.lifecycle == PermissionLifecycle.deprecated &&
    (match ce.deprecated_at with
     | some d => decide (d + retention ≤ now)
     | none => false))
  (newCat,
   { added := newlyAdded.length, updated := updatedCount,
     deprecated := deprecatedCount, removed := removedCount,
     unchanged := unchangedCount })

/-- The outcome of fetching an application's manifest: a parsed manifest,
or a failure (network error, non-2xx response, malformed JSON). -/
inductive FetchResult
  | ok (m : Manifest)
  | fetchError (msg : String)
  deriving Repr

/-- A row of table `permission_sync_runs` (init.sql), versions as Nat. -/
structure SyncRunRecord where
  application_id : String
  run_type : String
  requested_by : Option String
  app_version : Option Nat
  status : String
  summary : Option SyncSummary
  error_message : Option String
  started_at : Nat
  finished_at : Nat
  deriving DecidableEq, Repr

/-- The state a sync run acts on: the application's catalog, its current
recorded version, and the permission_sync_runs table. -/
structure AppSyncState where
  catalog : List CatalogEntry
  current_version : Option Nat
  runs : List SyncRunRecord
  deriving Repr

/-- Modelled from the spec: a manifest whose version is lower than the
application's recorded current version is a version regression. -/
def versionRegression (st : AppSyncState) (m : Manifest) : Bool :=
  match st.current_version with
  | some v => decide (m.version < v)
  | none => false

/-- Whether the fetch phase of a sync run failed (fetch error or version
regression): in that case the diff is aborted. -/
def syncFetchFailed (st : AppSyncState) (fetch : FetchResult) : Bool :=
  match fetch with
  | FetchResult.fetchError _ => true
  | FetchResult.ok m => versionRegression st m

/-- Modelled from the spec: one sync run (section 4.1 and the
permission_sync_runs table).  A failed fetch or a version regression
aborts with zero catalog mutations and an error record; otherwise the
diff is applied and a success record is written.  A run record is
appended in every case. -/
def runSync (st : AppSyncState) (appId : String) (requestedBy : Option String)
    (fetch : FetchResult) (now retention : Nat) : AppSyncState :=
  match fetch with
  | FetchResult.fetchError msg =>
      { st with runs := st.runs ++
          [{ application_id := appId, run_type := "pull", requested_by := requestedBy,
             app_version := none, status := "error", summary := none,
             error_message := some msg, started_at := now, finished_at := now }] }
  | FetchResult.ok m =>
      if versionRegression st m then
        { st with runs := st.runs ++
            [{ application_id := appId, run_type := "pull", requested_by := requestedBy,
               app_version := some m.version, status := "error", summary := none,
               error_message := some "manifest version regression",
               started_at := now, finished_at := now }] }
      else
        let res := syncDiff m st.catalog now retention
        { catalog := res.1, current_version := some m.version,
          runs := st.runs ++
            [{ application_id := appId, run_type := "pull", requested_by := requestedBy,
               app_version := some m.version, status := "success", summary := some res.2,
               error_message := none, started_at := now, finished_at := now }] }

/-- A concrete manifest used to witness the sync theorems. -/
def exManifest : Manifest :=
  { version := 2
    entries :=
      [{ permission_key := "projects:read", module_key := "projects", description := none },
       { permission_key := "reports:read", module_key := "reports", description := some "B" }] }

/-- A concrete catalog used to witness the sync theorems: one entry to
refresh, one active entry absent from the manifest, one long-deprecated
entry absent from the manifest. -/
def exCatalog : List CatalogEntry :=
  [{ permission_key := "projects:read", module_key := "projects", description := some "old",
     lifecycle := PermissionLifecycle.active, first_seen_version := 1,
     last_seen_version := 1, last_seen_at := 1, deprecated_at := none },
   { permission_key := "gone:exec", module_key := "gone", description := none,
     lifecycle := PermissionLifecycle.active, first_seen_version := 1,
     last_seen_version := 1, last_seen_at := 1, deprecated_at := none },
   { permission_key := "older:exec", module_key := "older", description := none,
     lifecycle := PermissionLifecycle.deprecated, first_seen_version := 1,
     last_seen_version := 1, last_seen_at := 1, deprecated_at := some 0 }]

section Theorems

/-- Membership in the served effective-permission set, characterized: a
pair (application_id, permission_key) is served for (tenant t, user u)
exactly when some user_roles row assigns u a role in t and some
role_permissions row of that role in t grants the key.  Neither the
permission catalog nor the roles table is consulted. -/
theorem mem_effectivePermissionsOf (db : Database) (t u a k : String) :
    (a, k) ∈ effectivePermissionsOf db t u ↔
      ∃ ur ∈ db.user_roles, ur.tenant_id = t ∧ ur.user_id = u ∧
        ∃ rp ∈ db.role_permissions, rp.tenant_id = t ∧ rp.role_id = ur.role_id ∧
          rp.application_id = a ∧ rp.permission_key = k := by
  simp only [effectivePermissionsOf, v_user_effective_permissions_rbac, List.mem_map,
    List.mem_filter, List.mem_dedup, List.mem_flatMap, Bool.and_eq_true, beq_iff_eq,
    Prod.mk.injEq]
  constructor
  · rintro ⟨r, ⟨⟨ur, hur, rp, ⟨hrp, hts, hrs⟩, rfl⟩, ht, hu⟩, ha, hk⟩
    dsimp only at ht hu ha hk
    exact ⟨ur, hur, ht, hu, rp, hrp, by rw [hts, ht], hrs, ha, hk⟩
  · rintro ⟨ur, hur, ht, hu, rp, hrp, hts, hrs, ha, hk⟩
    refine ⟨{ tenant_id := ur.tenant_id, user_id := ur.user_id,
              application_id := rp.application_id, permission_key := rp.permission_key },
            ⟨⟨ur, hur, rp, ⟨hrp, by rw [hts, ht], hrs⟩, rfl⟩, ht, hu⟩, ha, hk⟩

/-- C1: the code leaks a removed permission.  In exDB1 the catalog entry
(app1, legacy:write) has lifecycle removed, a role_permissions row still
references it, and the key appears in the effective-permission set served
by `v_user_effective_permissions_rbac` for (t1, u1), because the view
never joins external_permissions. -/
theorem c1_removed_leakage :
    (∃ ep ∈ exDB1.external_permissions, ep.application_id = "app1" ∧
      ep.permission_key = "legacy:write" ∧ ep.lifecycle = PermissionLifecycle.removed) ∧
    (∃ rp ∈ exDB1.role_permissions, rp.application_id = "app1" ∧
      rp.permission_key = "legacy:write") ∧
    ("app1", "legacy:write") ∈ effectivePermissionsOf exDB1 "t1" "u1" := by
  decide

/-- C2 counterexample: the claim as stated is false at exDB1 — the served
effective-permission set contains (app1, legacy:write) although that
catalog entry's lifecycle is removed, so the set differs from the
lifecycle-filtered union the claim prescribes. -/
theorem c2_counterexample :
    ("app1", "legacy:write") ∈ effectivePermissionsOf exDB1 "t1" "u1" ∧
    ("app1", "legacy:write") ∉ specEffectivePermissions exDB1 "t1" "u1" ∧
    effectivePermissionsOf exDB1 "t1" "u1" ≠ specEffectivePermissions exDB1 "t1" "u1" := by
  decide

/-- C2 (amended): the effective-permission set equals the deduplicated
union of the grants of the roles assigned to the user in the tenant, with
no lifecycle filtering and no precedence or deny semantics; a user with
zero role assignments in the tenant has an empty effective set. -/
theorem c2_effective_is_union_of_grants (db : Database) (t u : String) :
    (∀ a k, (a, k) ∈ effectivePermissionsOf db t u ↔
      ∃ ur ∈ db.user_roles, ur.tenant_id = t ∧ ur.user_id = u ∧
        ∃ rp ∈ db.role_permissions, rp.tenant_id = t ∧ rp.role_id = ur.role_id ∧
          rp.application_id = a ∧ rp.permission_key = k) ∧
    ((∀ ur ∈ db.user_roles, ¬(ur.tenant_id = t ∧ ur.user_id = u)) →
      effectivePermissionsOf db t u = []) := by
  refine ⟨fun a k => mem_effectivePermissionsOf db t u a k, fun h => ?_⟩
  rw [List.eq_nil_iff_forall_not_mem]
  rintro ⟨a, k⟩ hm
  rcases (mem_effectivePermissionsOf db t u a k).mp hm with ⟨ur, hur, ht, hu, -⟩
  exact h ur hur ⟨ht, hu⟩

/-- Witness for C2's theorem: user u2 has no role assignments in exDB1,
and the theorem yields the empty effective set for them. -/
theorem c2_effective_is_union_of_grants_witness :
    effectivePermissionsOf exDB1 "t1" "u2" = [] :=
  (c2_effective_is_union_of_grants exDB1 "t1" "u2").2 (by decide)

/-- C3: a soft-deleted role is not excluded.  In exDB3 role r2 has status
deleted (deleted_at set), its role_permissions row is retained, and its
grant still appears in the effective-permission set served for (t1, u1),
because `v_user_effective_permissions_rbac` never joins roles. -/
theorem c3_deleted_role_not_excluded :
    (∃ r ∈ exDB3.roles, r.id = "r2" ∧ r.status = RoleStatus.deleted ∧
      r.deleted_at ≠ none) ∧
    (∃ rp ∈ exDB3.role_permissions, rp.role_id = "r2" ∧ rp.application_id = "app1" ∧
      rp.permission_key = "reports:read") ∧
    ("app1", "reports:read") ∈ effectivePermissionsOf exDB3 "t1" "u1" := by
  decide

/-- C6: the batch body sent by saveMutation.  Its grant list holds exactly
the keys selected but not originally granted, its revoke list exactly the
keys originally granted but not selected; the lists are disjoint, and a
key that is both granted and selected, or neither, appears in neither
list. -/
theorem c6_batch_body_diff (granted selected : List String) (k : String) :
    (k ∈ (buildBatchBody granted selected).1 ↔ k ∈ selected ∧ k ∉ granted) ∧
    (k ∈ (buildBatchBody granted selected).2 ↔ k ∈ granted ∧ k ∉ selected) ∧
    ¬(k ∈ (buildBatchBody granted selected).1 ∧ k ∈ (buildBatchBody granted selected).2) ∧
    (k ∈ granted → k ∈ selected →
      k ∉ (buildBatchBody granted selected).1 ∧ k ∉ (buildBatchBody granted selected).2) ∧
    (k ∉ granted → k ∉ selected →
      k ∉ (buildBatchBody granted selected).1 ∧ k ∉ (buildBatchBody granted selected).2) := by
  have helem : ∀ (l : List String), List.elem k l.dedup = false ↔ k ∉ l := by
    intro l
    rw [← Bool.not_eq_true, ← List.elem_iff]
    simp [List.mem_dedup]
  simp only [buildBatchBody, List.mem_filter, List.mem_dedup, List.contains,
    Bool.not_eq_true', helem]
  tauto

/-- Witness for C6's theorem at a concrete matrix state. -/
theorem c6_batch_body_diff_witness :
    "x:read" ∈ (buildBatchBody ["x:write"] ["x:write", "x:read"]).1 :=
  ((c6_batch_body_diff ["x:write"] ["x:write", "x:read"] "x:read").1).mpr (by decide)

/-- C8: launching an application posts application_id and tenant_id to the
app-token endpoint and opens the URL formed from launch_url (falling back
to base_url, trailing slash stripped), the callback path (falling back to
/auth/tah-callback), ?token= and the access token of the response. -/
theorem c8_launch_url (app : AppLauncherItem) (tenantId : String) (tok : AppTokenResponse) :
    appTokenRequest app tenantId = { application_id := app.id, tenant_id := tenantId } ∧
    launchUrlFor app tok =
      claimLaunchUrl app.launch_url app.base_url app.callback_url tok.access_token :=
  ⟨rfl, rfl⟩

/-- C9: the accept-invite form posts the token and password exactly when
the two password fields match and the password has at least 6 characters;
otherwise it shows an error and sends nothing. -/
theorem c9_accept_invite_validation (t : Option String) (p c : String) :
    (acceptInviteSubmit t p c =
        AcceptInviteOutcome.sendRequest { token := t, password := p } ↔
      p = c ∧ 6 ≤ p.length) ∧
    (p ≠ c →
      acceptInviteSubmit t p c = AcceptInviteOutcome.showError "Passwords do not match") ∧
    (p = c → p.length < 6 →
      acceptInviteSubmit t p c =
        AcceptInviteOutcome.showError "Password must be at least 6 characters") := by
  unfold acceptInviteSubmit
  by_cases h1 : p = c
  · by_cases h2 : p.length < 6
    · simp [h1, h2, Nat.not_le.mpr h2]
    · simp [h1, h2, Nat.le_of_not_lt (by exact h2)]
  · simp [h1]

/-- Witness for C9's theorem: a matching 7-character password is sent. -/
theorem c9_accept_invite_validation_witness :
    acceptInviteSubmit (some "tok123") "hunter2" "hunter2" =
      AcceptInviteOutcome.sendRequest { token := some "tok123", password := "hunter2" } :=
  (c9_accept_invite_validation (some "tok123") "hunter2" "hunter2").1.mpr ⟨rfl, by decide⟩

/-- C10: on each of the seven tables carrying the set_updated_at BEFORE
UPDATE trigger, an update writes the row with updated_at equal to the
current time, whatever updated_at value the writer supplied. -/
theorem c10_updated_at_triggers (now w : Nat)
    (tr : TenantRow) (ur : UserRow) (utr : UserTenantRow) (ar : ApplicationRow)
    (tar : TenantApplicationRow) (epr : ExternalPermissionRow) (rr : RoleRow) :
    trg_tenants_updated_at now { tr with updated_at := w } = { tr with updated_at := now } ∧
    trg_users_updated_at now { ur with updated_at := w } = { ur with updated_at := now } ∧
    trg_user_tenants_updated_at now { utr with updated_at := w } =
      { utr with updated_at := now } ∧
    trg_applications_updated_at now { ar with updated_at := w } =
      { ar with updated_at := now } ∧
    trg_tenant_applications_updated_at now { tar with updated_at := w } =
      { tar with updated_at := now } ∧
    trg_external_permissions_updated_at now { epr with updated_at := w } =
      { epr with updated_at := now } ∧
    trg_roles_updated_at now { rr with updated_at := w } = { rr with updated_at := now } :=
  ⟨rfl, rfl, rfl, rfl, rfl, rfl, rfl⟩

/-- Invariant of the interceptor state machine: the number of outstanding
refresh POSTs is 1 exactly while `isRefreshing` is set, 0 otherwise. -/
theorem clientRefresh_flag_counts (at0 rt0 : Option String) (s : ClientState)
    (h : ClientReachable (clientInit at0 rt0) s) :
    s.refreshInFlight = (if s.isRefreshing then 1 else 0) := by
  induction h with
  | refl => rfl
  | step s s' e hr hstep ih =>
    cases hstep with
    | on401_queued hq => simpa using ih
    | on401_start hq hrt => simp_all
    | on401_noToken hq hrt => simpa using ih
    | refresh_ok hpos =>
      dsimp only
      cases hb : s.isRefreshing
      · rw [hb] at ih; simp at ih ⊢; omega
      · rw [hb] at ih; simp at ih ⊢; omega
    | refresh_err hpos =>
      dsimp only
      cases hb : s.isRefreshing
      · rw [hb] at ih; simp at ih ⊢; omega
      · rw [hb] at ih; simp at ih ⊢; omega

/-- C7: in every reachable client state at most one refresh request is in
flight; a 401 arriving while a refresh is in progress is queued and issues
no second refresh; when the refresh resolves, every queued request is
retried with the new access token; when it rejects, every queued request
is rejected and both stored tokens are cleared. -/
theorem c7_refresh_single_flight (at0 rt0 : Option String) :
    (∀ s, ClientReachable (clientInit at0 rt0) s → s.refreshInFlight ≤ 1) ∧
    (∀ s s' rid, s.isRefreshing = true → ClientStep s (ClientEvent.resp401 rid) s' →
      s'.refreshInFlight = s.refreshInFlight ∧ s'.isRefreshing = true ∧
      s'.failedQueue = s.failedQueue ++ [rid]) ∧
    (∀ s s' tok nr, ClientStep s (ClientEvent.refreshSuccess tok nr) s' →
      s'.access_token = some tok ∧
      s'.retried = s.retried ++ s.failedQueue.map (fun rid => (rid, tok)) ∧
      s'.failedQueue = []) ∧
    (∀ s s', ClientStep s ClientEvent.refreshFailure s' →
      s'.rejected = s.rejected ++ s.failedQueue ∧ s'.failedQueue = [] ∧
      s'.access_token = none ∧ s'.refresh_token = none) := by
  refine ⟨?_, ?_, ?_, ?_⟩
  · intro s hs
    rw [clientRefresh_flag_counts at0 rt0 s hs]
    split <;> omega
  · intro s s' rid hflag hstep
    cases hstep
    case on401_queued h => exact ⟨rfl, hflag, rfl⟩
    case on401_start h hr => simp [h] at hflag
    case on401_noToken h hr => simp [h] at hflag
  · intro s s' tok nr hstep
    cases hstep
    case refresh_ok h => exact ⟨rfl, rfl, rfl⟩
  · intro s s' hstep
    cases hstep
    case refresh_err h => exact ⟨rfl, rfl, rfl, rfl⟩

/-- Witness for C7's theorem at the initial client state. -/
theorem c7_refresh_single_flight_witness :
    (clientInit (some "a0") (some "r0")).refreshInFlight ≤ 1 :=
  (c7_refresh_single_flight (some "a0") (some "r0")).1 _ ClientReachable.refl

/-- C5: every sync run appends exactly one permission_sync_runs record
carrying run_type, requested_by and timestamps, whatever the outcome; and
a failed fetch (network error, malformed manifest) or a version
regression aborts the diff with zero catalog mutations and an error
record carrying an error message. -/
theorem c5_failed_fetch_aborts (st : AppSyncState) (appId : String) (rb : Option String)
    (fetch : FetchResult) (now retention : Nat) :
    ((runSync st appId rb fetch now retention).runs).length = st.runs.length + 1 ∧
    (∃ rec : SyncRunRecord,
      (runSync st appId rb fetch now retention).runs = st.runs ++ [rec] ∧
      rec.application_id = appId ∧ rec.run_type = "pull" ∧ rec.requested_by = rb ∧
      rec.started_at = now ∧ rec.finished_at = now) ∧
    (syncFetchFailed st fetch = true →
      (runSync st appId rb fetch now retention).catalog = st.catalog ∧
      (runSync st appId rb fetch now retention).current_version = st.current_version ∧
      ∃ rec : SyncRunRecord,
        (runSync st appId rb fetch now retention).runs = st.runs ++ [rec] ∧
        rec.status = "error" ∧ rec.error_message ≠ none ∧ rec.summary = none) := by
  cases fetch with
  | fetchError msg =>
    refine ⟨by simp [runSync], ⟨_, rfl, rfl, rfl, rfl, rfl, rfl⟩,
      fun hfail => ⟨rfl, rfl, _, rfl, rfl, by simp, rfl⟩⟩
  | ok m =>
    by_cases hreg : versionRegression st m = true
    · have hrw : runSync st appId rb (FetchResult.ok m) now retention =
        { st with runs := st.runs ++
          [{ application_id := appId, run_type := "pull", requested_by := rb,
             app_version := some m.version, status := "error", summary := none,
             error_message := some "manifest version regression",
             started_at := now, finished_at := now }] } := by
        simp [runSync, hreg]
      rw [hrw]
      exact ⟨by simp, ⟨_, rfl, rfl, rfl, rfl, rfl, rfl⟩,
        fun hfail => ⟨rfl, rfl, _, rfl, rfl, by simp, rfl⟩⟩
    · simp only [runSync, if_neg hreg]
      refine ⟨by simp, ⟨_, rfl, rfl, rfl, rfl, rfl, rfl⟩, fun hfail => ?_⟩
      rw [syncFetchFailed] at hfail
      exact absurd hfail hreg

/-- Witness for C5's theorem: a timed-out fetch leaves the catalog
untouched. -/
theorem c5_failed_fetch_aborts_witness :
    (runSync { catalog := exCatalog, current_version := some 1, runs := [] } "app1" none
      (FetchResult.fetchError "connect timeout") 3 7).catalog = exCatalog :=
  ((c5_failed_fetch_aborts { catalog := exCatalog, current_version := some 1, runs := [] }
    "app1" none (FetchResult.fetchError "connect timeout") 3 7).2.2 rfl).1



/-- The per-entry sync transition never changes an entry's key. -/
theorem syncEntryStep_key (m : Manifest) (now r : Nat) (ce : CatalogEntry) :
    (syncEntryStep m now r ce).permission_key = ce.permission_key := by
  unfold syncEntryStep
  cases findManifestEntry m ce.permission_key with
  | some me => rfl
  | none =>
    unfold retireEntry
    rcases ce with ⟨key, mk, de, lc, fsv, lsv, lsa, da⟩
    cases lc with
    | active => rfl
    | deprecated =>
      cases da with
      | some d =>
        dsimp only
        split <;> rfl
      | none => rfl
    | removed => rfl

/-- In a manifest with no duplicate keys, looking an entry up by its own
key finds that entry. -/
theorem manifest_find?_eq_self (l : List ManifestEntry) (x : ManifestEntry)
    (hnd : (l.map (fun e => e.permission_key)).Nodup) (hx : x ∈ l) :
    l.find? (fun e => e.permission_key == x.permission_key) = some x := by
  induction l with
  | nil => cases hx
  | cons a tl ih =>
    rw [List.map_cons, List.nodup_cons] at hnd
    rcases List.mem_cons.mp hx with rfl | hx2
    · simp [List.find?_cons]
    · have hne : (a.permission_key == x.permission_key) = false := by
        rw [beq_eq_false_iff_ne]
        intro he
        exact hnd.1 (he ▸ List.mem_map_of_mem (fun e => e.permission_key) hx2)
      rw [List.find?_cons, hne]
      exact ih hnd.2 hx2

/-- Key presence in the catalog agrees with the key lookup. -/
theorem catalogHasKey_eq_isSome (c : List CatalogEntry) (k : String) :
    catalogHasKey c k = (findCatalogEntry c k).isSome := by
  rw [Bool.eq_iff_iff]
  simp [catalogHasKey, findCatalogEntry, List.any_eq_true, List.find?_isSome]



/-- After one sync run, every manifest entry is found in the catalog with
its tracked fields matching the manifest and lifecycle active. -/
theorem syncDiff_find_after (m : Manifest) (catalog : List CatalogEntry) (now r : Nat)
    (hnd : (m.entries.map (fun e => e.permission_key)).Nodup)
    (me : ManifestEntry) (hme : me ∈ m.entries) :
    ∃ ce, findCatalogEntry (syncDiff m catalog now r).1 me.permission_key = some ce ∧
      ce.module_key = me.module_key ∧ ce.description = me.description ∧
      ce.lifecycle = PermissionLifecycle.active := by
  have hfm : findManifestEntry m me.permission_key = some me :=
    manifest_find?_eq_self m.entries me hnd hme
  have h1 : (syncDiff m catalog now r).1 =
      catalog.map (syncEntryStep m now r) ++
        (m.entries.filter (fun me2 =>
          !(catalogHasKey catalog me2.permission_key))).map (newCatalogEntry m now) := rfl
  rw [h1, findCatalogEntry, List.find?_append, List.find?_map, List.find?_map]
  have hp : ((fun ce => ce.permission_key == me.permission_key) ∘ syncEntryStep m now r) =
      (fun ce0 => ce0.permission_key == me.permission_key) := by
    funext ce0
    simp [Function.comp, syncEntryStep_key]
  have hp2 : ((fun ce => ce.permission_key == me.permission_key) ∘ newCatalogEntry m now) =
      (fun me2 => me2.permission_key == me.permission_key) := by
    funext me2
    simp [Function.comp, newCatalogEntry]
  rw [hp, hp2]
  by_cases hk : catalogHasKey catalog me.permission_key = true
  · rw [catalogHasKey_eq_isSome] at hk
    rcases Option.isSome_iff_exists.mp hk with ⟨ce0, hce0⟩
    rw [findCatalogEntry] at hce0
    rw [hce0]
    have hkey : ce0.permission_key = me.permission_key := by
      have := List.find?_some hce0
      simpa using this
    have hstep : syncEntryStep m now r ce0 = refreshEntry m now me ce0 := by
      unfold syncEntryStep
      rw [hkey, hfm]
    refine ⟨refreshEntry m now me ce0, ?_, rfl, rfl, rfl⟩
    simp [hstep]
  · have hnone : findCatalogEntry catalog me.permission_key = none := by
      rw [← Option.not_isSome_iff_eq_none, ← catalogHasKey_eq_isSome]
      simpa using hk
    rw [findCatalogEntry] at hnone
    rw [hnone]
    have hmem : me ∈ m.entries.filter (fun me2 =>
        !(catalogHasKey catalog me2.permission_key)) := by
      rw [List.mem_filter]
      refine ⟨hme, ?_⟩
      rw [Bool.not_eq_true] at hk
      simp [hk]
    have hnd2 : ((m.entries.filter (fun me2 =>
        !(catalogHasKey catalog me2.permission_key))).map (fun e => e.permission_key)).Nodup :=
      hnd.sublist (List.Sublist.map (fun e => e.permission_key) (List.filter_sublist m.entries))
    rw [manifest_find?_eq_self _ me hnd2 hmem]
    exact ⟨newCatalogEntry m now me, by simp, rfl, rfl, rfl⟩



/-- Every entry of a just-synced catalog is a fixed point of the per-entry
transition; moreover an entry absent from the manifest is not active, and
if deprecated its retention window has not yet elapsed. -/
theorem syncDiff_mem_fix (m : Manifest) (catalog : List CatalogEntry) (now r : Nat)
    (hr : 1 ≤ r)
    (hnd : (m.entries.map (fun e => e.permission_key)).Nodup)
    (ce : CatalogEntry) (hce : ce ∈ (syncDiff m catalog now r).1) :
    syncEntryStep m now r ce = ce ∧
    (manifestHasKey m ce.permission_key = false →
      ce.lifecycle ≠ PermissionLifecycle.active ∧
      (ce.lifecycle = PermissionLifecycle.deprecated →
        ∀ d, ce.deprecated_at = some d → ¬ (d + r ≤ now))) := by
  have h1 : (syncDiff m catalog now r).1 =
      catalog.map (syncEntryStep m now r) ++
        (m.entries.filter (fun me2 =>
          !(catalogHasKey catalog me2.permission_key))).map (newCatalogEntry m now) := rfl
  rw [h1, List.mem_append] at hce
  rcases hce with hmap | hadd
  · rcases List.mem_map.mp hmap with ⟨ce0, hce0, rfl⟩
    cases hm : findManifestEntry m ce0.permission_key with
    | some me =>
      have hstep0 : syncEntryStep m now r ce0 = refreshEntry m now me ce0 := by
        unfold syncEntryStep
        rw [hm]
      rw [hstep0]
      constructor
      · unfold syncEntryStep
        have hk2 : (refreshEntry m now me ce0).permission_key = ce0.permission_key := rfl
        rw [hk2, hm]
        simp [refreshEntry]
      · intro habs
        unfold manifestHasKey at habs
        have hk2 : (refreshEntry m now me ce0).permission_key = ce0.permission_key := rfl
        rw [hk2, hm] at habs
        cases habs
    | none =>
      have hstep0 : syncEntryStep m now r ce0 = retireEntry now r ce0 := by
        unfold syncEntryStep
        rw [hm]
      rw [hstep0]
      have hkey : (retireEntry now r ce0).permission_key = ce0.permission_key := by
        unfold retireEntry
        rcases ce0 with ⟨key, mk, de, lc, fsv, lsv, lsa, da⟩
        cases lc with
        | active => rfl
        | deprecated =>
          cases da with
          | some d =>
            dsimp only
            split <;> rfl
          | none => rfl
        | removed => rfl
      have hstep1 : syncEntryStep m now r (retireEntry now r ce0) =
          retireEntry now r (retireEntry now r ce0) := by
        unfold syncEntryStep
        rw [hkey, hm]
      rcases ce0 with ⟨key, mk, de, lc, fsv, lsv, lsa, da⟩
      cases lc with
      | active =>
        refine ⟨?_, fun _ => ⟨by simp [retireEntry], fun _ d hd => ?_⟩⟩
        · rw [hstep1]
          simp only [retireEntry]
          have : ¬ (now + r ≤ now) := by omega
          simp [this]
        · simp only [retireEntry] at hd
          cases hd
          omega
      | deprecated =>
        cases da with
        | some d =>
          by_cases hdr : d + r ≤ now
          · have hret : retireEntry now r
                ⟨key, mk, de, PermissionLifecycle.deprecated, fsv, lsv, lsa, some d⟩ =
                ⟨key, mk, de, PermissionLifecycle.removed, fsv, lsv, lsa, some d⟩ := by
              simp [retireEntry, hdr]
            rw [hret] at hstep1 ⊢
            refine ⟨?_, fun _ => ⟨by simp, fun hlc => ?_⟩⟩
            · rw [hstep1]
              simp [retireEntry]
            · cases hlc
          · have hret : retireEntry now r
                ⟨key, mk, de, PermissionLifecycle.deprecated, fsv, lsv, lsa, some d⟩ =
                ⟨key, mk, de, PermissionLifecycle.deprecated, fsv, lsv, lsa, some d⟩ := by
              simp [retireEntry, hdr]
            rw [hret] at hstep1 ⊢
            refine ⟨?_, fun _ => ⟨by simp, fun _ d2 hd2 => ?_⟩⟩
            · rw [hstep1, hret]
            · cases hd2
              exact hdr
        | none =>
          have hret : retireEntry now r
              ⟨key, mk, de, PermissionLifecycle.deprecated, fsv, lsv, lsa, none⟩ =
              ⟨key, mk, de, PermissionLifecycle.deprecated, fsv, lsv, lsa, none⟩ := by
            simp [retireEntry]
          rw [hret] at hstep1 ⊢
          refine ⟨?_, fun _ => ⟨by simp, fun _ d2 hd2 => ?_⟩⟩
          · rw [hstep1, hret]
          · cases hd2
      | removed =>
        have hret : retireEntry now r
            ⟨key, mk, de, PermissionLifecycle.removed, fsv, lsv, lsa, da⟩ =
            ⟨key, mk, de, PermissionLifecycle.removed, fsv, lsv, lsa, da⟩ := by
          simp [retireEntry]
        rw [hret] at hstep1 ⊢
        refine ⟨?_, fun _ => ⟨by simp, fun hlc => ?_⟩⟩
        · rw [hstep1, hret]
        · cases hlc
  · rcases List.mem_map.mp hadd with ⟨me0, hme0, rfl⟩
    have hme0e : me0 ∈ m.entries := (List.mem_filter.mp hme0).1
    have hfm0 : findManifestEntry m me0.permission_key = some me0 :=
      manifest_find?_eq_self m.entries me0 hnd hme0e
    constructor
    · unfold syncEntryStep
      have hk2 : (newCatalogEntry m now me0).permission_key = me0.permission_key := rfl
      rw [hk2, hfm0]
      simp [refreshEntry, newCatalogEntry]
    · intro habs
      unfold manifestHasKey at habs
      have hk2 : (newCatalogEntry m now me0).permission_key = me0.permission_key := rfl
      rw [hk2, hfm0] at habs
      cases habs



/-- C4: running Sync twice with an unchanged manifest leaves the catalog
of the first run untouched (last_seen bookkeeping rewrites the same
values) and reports added = updated = deprecated = removed = 0 and
unchanged = N, the number of manifest entries. -/
theorem c4_sync_idempotent (m : Manifest) (catalog : List CatalogEntry) (now retention : Nat)
    (hr : 1 ≤ retention)
    (hnd : (m.entries.map (fun e => e.permission_key)).Nodup) :
    (syncDiff m (syncDiff m catalog now retention).1 now retention).1 =
      (syncDiff m catalog now retention).1 ∧
    (syncDiff m (syncDiff m catalog now retention).1 now retention).2 =
      { added := 0, updated := 0, deprecated := 0, removed := 0,
        unchanged := m.entries.length } := by
  set cat1 := (syncDiff m catalog now retention).1 with hc1
  have hfind : ∀ me ∈ m.entries, ∃ ce,
      findCatalogEntry cat1 me.permission_key = some ce ∧
      ce.module_key = me.module_key ∧ ce.description = me.description ∧
      ce.lifecycle = PermissionLifecycle.active :=
    fun me hme => syncDiff_find_after m catalog now retention hnd me hme
  have hhas : ∀ me ∈ m.entries, catalogHasKey cat1 me.permission_key = true := by
    intro me hme
    rcases hfind me hme with ⟨ce, hce, -⟩
    rw [catalogHasKey_eq_isSome, hce]
    rfl
  have hfix : ∀ ce ∈ cat1, syncEntryStep m now retention ce = ce ∧
      (manifestHasKey m ce.permission_key = false →
        ce.lifecycle ≠ PermissionLifecycle.active ∧
        (ce.lifecycle = PermissionLifecycle.deprecated →
          ∀ d, ce.deprecated_at = some d → ¬ (d + retention ≤ now))) :=
    fun ce hce => syncDiff_mem_fix m catalog now retention hr hnd ce hce
  have hfilter : m.entries.filter
      (fun me => !(catalogHasKey cat1 me.permission_key)) = [] := by
    rw [List.filter_eq_nil_iff]
    intro me hme
    simp [hhas me hme]
  have hmap : cat1.map (syncEntryStep m now retention) = cat1 := by
    have hid : ∀ ce ∈ cat1, syncEntryStep m now retention ce = id ce :=
      fun ce hce => (hfix ce hce).1
    rw [List.map_congr_left hid, List.map_id]
  constructor
  · have h2 : (syncDiff m cat1 now retention).1 =
        cat1.map (syncEntryStep m now retention) ++
          (m.entries.filter (fun me2 =>
            !(catalogHasKey cat1 me2.permission_key))).map (newCatalogEntry m now) := rfl
    rw [h2, hfilter, List.map_nil, List.append_nil, hmap]
  · have h3 : (syncDiff m cat1 now retention).2 =
        { added := (m.entries.filter (fun me =>
            !(catalogHasKey cat1 me.permission_key))).length
          updated := m.entries.countP (fun me =>
            match findCatalogEntry cat1 me.permission_key with
            | some ce => entryChanged me ce
            | none => false)
          deprecated := cat1.countP (fun ce =>
            ce.lifecycle == PermissionLifecycle.active &&
            !(manifestHasKey m ce.permission_key))
          removed := cat1.countP (fun ce =>
            !(manifestHasKey m ce.permission_key) &&
            ce.lifecycle == PermissionLifecycle.deprecated &&
            (match ce.deprecated_at with
             | some d => decide (d + retention ≤ now)
             | none => false))
          unchanged := m.entries.countP (fun me =>
            match findCatalogEntry cat1 me.permission_key with
            | some ce => !(entryChanged me ce)
            | none => false) } := rfl
    rw [h3]
    have hadded : (m.entries.filter (fun me =>
        !(catalogHasKey cat1 me.permission_key))).length = 0 := by
      rw [hfilter]
      rfl
    have hupd : m.entries.countP (fun me =>
        match findCatalogEntry cat1 me.permission_key with
        | some ce => entryChanged me ce
        | none => false) = 0 := by
      rw [List.countP_eq_zero]
      intro me hme
      rcases hfind me hme with ⟨ce, hce, hmk, hde, hlc⟩
      simp only [hce]
      simp [entryChanged, hmk, hde, hlc]
    have hunchg : m.entries.countP (fun me =>
        match findCatalogEntry cat1 me.permission_key with
        | some ce => !(entryChanged me ce)
        | none => false) = m.entries.length := by
      rw [List.countP_eq_length]
      intro me hme
      rcases hfind me hme with ⟨ce, hce, hmk, hde, hlc⟩
      simp only [hce]
      simp [entryChanged, hmk, hde, hlc]
    have hdepc : cat1.countP (fun ce =>
        ce.lifecycle == PermissionLifecycle.active &&
        !(manifestHasKey m ce.permission_key)) = 0 := by
      rw [List.countP_eq_zero]
      intro ce hce
      by_cases hmk : manifestHasKey m ce.permission_key = true
      · simp [hmk]
      · rw [Bool.not_eq_true] at hmk
        have hact := ((hfix ce hce).2 hmk).1
        simp [hmk, hact]
    have hremc : cat1.countP (fun ce =>
        !(manifestHasKey m ce.permission_key) &&
        ce.lifecycle == PermissionLifecycle.deprecated &&
        (match ce.deprecated_at with
         | some d => decide (d + retention ≤ now)
         | none => false)) = 0 := by
      rw [List.countP_eq_zero]
      intro ce hce
      by_cases hmk : manifestHasKey m ce.permission_key = true
      · simp [hmk]
      · rw [Bool.not_eq_true] at hmk
        have hdep := ((hfix ce hce).2 hmk).2
        by_cases hlc : ce.lifecycle = PermissionLifecycle.deprecated
        · cases hda : ce.deprecated_at with
          | some d =>
            have := hdep hlc d hda
            simp [hmk, hda, this]
          | none => simp [hmk, hda]
        · simp [hmk, hlc]
    rw [hadded, hupd, hunchg, hdepc, hremc]


/-- Witness for C4's theorem at a concrete manifest and catalog. -/
theorem c4_sync_idempotent_witness :
    (syncDiff exManifest (syncDiff exManifest exCatalog 10 5).1 10 5).2 =
      { added := 0, updated := 0, deprecated := 0, removed := 0,
        unchanged := exManifest.entries.length } :=
  (c4_sync_idempotent exManifest exCatalog 10 5 (by decide) (by decide)).2

end Theorems

end TAH
